import Mathlib

/-!
Shallow embedding of the risk-and-strategy decision engine of the
jasonbottrader3 repository: the trailing stop-loss, tiered take-profit and
exit manager, the drawdown circuit breaker, the position manager, the
strategy manager's switch cooldown, and the market-data validation gate.
JavaScript numbers are modelled as rationals; JavaScript `Map`s as
association lists or lookup functions; side effects (event emission,
executed drawdown actions) as explicit traces returned by the step
functions; `Date.now()` as an explicit `now` parameter.
-/

namespace JBT

/-- Trailing stop-loss state (class `TrailingStopLoss`,
`src/risk/position-manager.js`). -/
structure TrailingStopLoss where
  entryPrice : ℚ
  trailingPercent : ℚ
  highestPrice : ℚ
  stopPrice : ℚ
  isTriggered : Bool
deriving DecidableEq, Repr

/-- Constructor of `TrailingStopLoss`: highest price starts at the entry
price and the stop sits `trailingPercent` below it. -/
def TrailingStopLoss.mkInit (entryPrice trailingPercent : ℚ) : TrailingStopLoss :=
  { entryPrice := entryPrice
    trailingPercent := trailingPercent
    highestPrice := entryPrice
    stopPrice := entryPrice * (1 - trailingPercent)
    isTriggered := false }

/-- `TrailingStopLoss.update(currentPrice)`: raises the highest price and
recomputes the stop when the price makes a new high, then reports whether
the stop fired (price at or below the stop while not already triggered). -/
def TrailingStopLoss.update (s : TrailingStopLoss) (currentPrice : ℚ) :
    TrailingStopLoss × Bool :=
  let s1 :=
    if currentPrice > s.highestPrice then
      { s with
        highestPrice := currentPrice
        stopPrice := currentPrice * (1 - s.trailingPercent) }
    else s
  if currentPrice ≤ s1.stopPrice ∧ s1.isTriggered = false then
    ({ s1 with isTriggered := true }, true)
  else
    (s1, false)

/-- Folds a sequence of `update` calls, keeping only the state. -/
def TrailingStopLoss.run (s : TrailingStopLoss) (prices : List ℚ) : TrailingStopLoss :=
  prices.foldl (fun acc p => (acc.update p).1) s

/-- One configured take-profit level (element of `TakeProfitLevels.levels`). -/
structure TPLevel where
  percent : ℚ
  amount : ℚ
  targetPrice : ℚ
  isTriggered : Bool
  levelIndex : ℕ
deriving DecidableEq, Repr

/-- Tiered take-profit state (class `TakeProfitLevels`). -/
structure TakeProfitLevels where
  entryPrice : ℚ
  levels : List TPLevel
  executedLevels : List TPLevel
deriving DecidableEq, Repr

/-- The indexed `map` of the `TakeProfitLevels` constructor: builds the
level records from the configured (percent, amount) pairs, target price
`entryPrice * (1 + percent)`, 1-based level indices, nothing triggered. -/
def mkTPLevels (entryPrice : ℚ) : ℕ → List (ℚ × ℚ) → List TPLevel
  | _, [] => []
  | index, c :: cs =>
    { percent := c.1
      amount := c.2
      targetPrice := entryPrice * (1 + c.1)
      isTriggered := false
      levelIndex := index + 1 } :: mkTPLevels entryPrice (index + 1) cs

/-- Constructor of `TakeProfitLevels` from the configured
(percent, amount) pairs. -/
def TakeProfitLevels.mkInit (entryPrice : ℚ) (cfg : List (ℚ × ℚ)) : TakeProfitLevels :=
  { entryPrice := entryPrice
    levels := mkTPLevels entryPrice 0 cfg
    executedLevels := [] }

/-- Body of the `for` loop of `TakeProfitLevels.checkLevels`: walks the
levels, marks each untriggered level whose target the price reached, and
collects the newly triggered levels in order. -/
def checkLevelsList (currentPrice : ℚ) : List TPLevel → List TPLevel × List TPLevel
  | [] => ([], [])
  | l :: ls =>
    let rest := checkLevelsList currentPrice ls
    if l.isTriggered = false ∧ currentPrice ≥ l.targetPrice then
      ({ l with isTriggered := true } :: rest.1, { l with isTriggered := true } :: rest.2)
    else
      (l :: rest.1, rest.2)

/-- `TakeProfitLevels.checkLevels(currentPrice)`: triggers every untriggered
level whose target price was reached, appends them to `executedLevels`, and
returns them. -/
def TakeProfitLevels.checkLevels (tp : TakeProfitLevels) (currentPrice : ℚ) :
    TakeProfitLevels × List TPLevel :=
  let r := checkLevelsList currentPrice tp.levels
  ({ tp with levels := r.1, executedLevels := tp.executedLevels ++ r.2 }, r.2)

/-- `TakeProfitLevels.allLevelsExecuted()`: every level is triggered. -/
def TakeProfitLevels.allLevelsExecuted (tp : TakeProfitLevels) : Bool :=
  tp.levels.all fun level => level.isTriggered

/-- `TakeProfitLevels.getNextLevel()`: first untriggered level, if any. -/
def TakeProfitLevels.getNextLevel (tp : TakeProfitLevels) : Option TPLevel :=
  tp.levels.find? fun level => level.isTriggered = false

/-- Record stored by `ExitManager.startManaging` in `activeExits`. -/
structure ExitRecord where
  stopLoss : TrailingStopLoss
  takeProfit : TakeProfitLevels
  entryPrice : ℚ
  startTime : ℚ
deriving DecidableEq, Repr

/-- One entry of the `partialExit` list returned by `ExitManager.update`. -/
structure PartialExit where
  levelIndex : ℕ
  amountPercent : ℚ
  targetPrice : ℚ
  currentPrice : ℚ
deriving DecidableEq, Repr

/-- Result object of `ExitManager.update`; keys absent in the JavaScript
object are `none`. -/
structure ExitResult where
  shouldExit : Bool
  reason : Option String
  exitPrice : Option ℚ
  pnlPercent : Option ℚ
  partialExit : Option (List PartialExit)
deriving DecidableEq, Repr

/-- Exit manager state: `activeExits` maps a pair to its exit record. -/
structure ExitManager where
  activeExits : String → Option ExitRecord

/-- `ExitManager.startManaging(pair, entryPrice)` with the configured
trailing percent and take-profit levels passed explicitly. -/
def ExitManager.startManaging (em : ExitManager) (pair : String)
    (entryPrice trailingPercent : ℚ) (tpCfg : List (ℚ × ℚ)) (now : ℚ) : ExitManager :=
  { activeExits := fun p =>
      if p = pair then
        some { stopLoss := TrailingStopLoss.mkInit entryPrice trailingPercent
               takeProfit := TakeProfitLevels.mkInit entryPrice tpCfg
               entryPrice := entryPrice
               startTime := now }
      else em.activeExits p }

/-- Replaces the stored record of `pair` (the JavaScript code mutates the
record held in the `Map` in place). -/
def ExitManager.setExit (em : ExitManager) (pair : String) (r : ExitRecord) : ExitManager :=
  { activeExits := fun p => if p = pair then some r else em.activeExits p }

/-- `ExitManager.update(pair, currentPrice)`: checks the trailing stop first
and short-circuits on it; otherwise evaluates the take-profit levels and
reports a full close when all levels have executed, or a partial exit. -/
def ExitManager.update (em : ExitManager) (pair : String) (currentPrice : ℚ) :
    ExitManager × ExitResult :=
  match em.activeExits pair with
  | none => (em, ⟨false, none, none, none, none⟩)
  | some exitRec =>
    let slr := exitRec.stopLoss.update currentPrice
    if slr.2 then
      (em.setExit pair { exitRec with stopLoss := slr.1 },
       ⟨true, some "stop_loss", some currentPrice,
        some ((currentPrice - exitRec.entryPrice) / exitRec.entryPrice * 100), none⟩)
    else
      let tpr := exitRec.takeProfit.checkLevels currentPrice
      let em1 := em.setExit pair { exitRec with stopLoss := slr.1, takeProfit := tpr.1 }
      if tpr.2.length > 0 then
        if tpr.1.allLevelsExecuted then
          (em1, ⟨true, some "all_take_profit_levels", some currentPrice,
                 some ((currentPrice - exitRec.entryPrice) / exitRec.entryPrice * 100), none⟩)
        else
          (em1, ⟨false, none, none, none,
                 some (tpr.2.map fun level =>
                   { levelIndex := level.levelIndex
                     amountPercent := level.amount
                     targetPrice := level.targetPrice
                     currentPrice := currentPrice })⟩)
      else
        (em1, ⟨false, none, none, none, none⟩)

/-- `ExitManager.stopManaging(pair)`: drops the record, a no-op when the
pair is not managed. -/
def ExitManager.stopManaging (em : ExitManager) (pair : String) : ExitManager :=
  { activeExits := fun p => if p = pair then none else em.activeExits p }

/-- A concrete managed exit used as an example: entry 100, trailing stop 3
percent, one take-profit level already 10 percent below the entry, so that
a price of 95 satisfies the stop-loss and the take-profit target at once. -/
def sampleExitRecord : ExitRecord :=
  { stopLoss := TrailingStopLoss.mkInit 100 (3/100)
    takeProfit := TakeProfitLevels.mkInit 100 [(-1/10, 1)]
    entryPrice := 100
    startTime := 0 }

/-- An exit manager managing only the pair "ETH/USDC" with
`sampleExitRecord`. -/
def sampleExitManager : ExitManager :=
  { activeExits := fun p => if p = "ETH/USDC" then some sampleExitRecord else none }

/-- Action of one configured drawdown level (`config.risk.drawdownLevels`,
field `action`). -/
inductive DrawdownAction where
  | pause
  | pause_and_reset
  | stop
deriving DecidableEq, Repr

/-- One configured drawdown level: threshold (negative percent as a
fraction), action, and optional pause duration in seconds. -/
structure DrawdownLevel where
  percent : ℚ
  action : DrawdownAction
  duration : Option ℚ
deriving DecidableEq, Repr

/-- Circuit-breaker state (class `DrawdownManager`,
`src/risk/position-manager.js`). -/
structure DrawdownManager where
  initialCapital : ℚ
  peakCapital : ℚ
  currentCapital : ℚ
  currentDrawdown : ℚ
  maxDrawdownReached : ℚ
  levels : List DrawdownLevel
  triggeredLevels : List ℕ
  isPaused : Bool
  pauseUntil : Option ℚ
  currentLevel : Option ℕ
deriving DecidableEq, Repr

/-- Constructor of `DrawdownManager` (also its `reset()`): peak and current
capital start at the initial capital, nothing triggered, not paused. -/
def DrawdownManager.mkInit (initialCapital : ℚ) (levels : List DrawdownLevel) :
    DrawdownManager :=
  { initialCapital := initialCapital
    peakCapital := initialCapital
    currentCapital := initialCapital
    currentDrawdown := 0
    maxDrawdownReached := 0
    levels := levels
    triggeredLevels := []
    isPaused := false
    pauseUntil := none
    currentLevel := none }

/-- `DrawdownManager.pauseTrading(durationSeconds)`: a falsy duration
(absent or zero) is a no-op; otherwise sets the pause flag and the
wall-clock deadline `now + duration * 1000` milliseconds. -/
def DrawdownManager.pauseTrading (m : DrawdownManager) (now : ℚ)
    (durationSeconds : Option ℚ) : DrawdownManager :=
  match durationSeconds with
  | none => m
  | some d =>
    if d = 0 then m
    else { m with isPaused := true, pauseUntil := some (now + d * 1000) }

/-- `DrawdownManager.executeAction(level)`: `pause` and `pause_and_reset`
pause trading (the reset part only emits a strategy-change event), `stop`
only emits the shutdown event; no capital fields change. -/
def DrawdownManager.executeAction (m : DrawdownManager) (now : ℚ)
    (level : DrawdownLevel) : DrawdownManager :=
  match level.action with
  | .pause => m.pauseTrading now level.duration
  | .pause_and_reset => m.pauseTrading now level.duration
  | .stop => m

/-- `DrawdownManager.triggerLevel(levelIndex, level)`: records the index as
triggered, sets the 1-based current level, and executes the level's action.
The fired (index, action) pair is returned as the observable trace. -/
def DrawdownManager.triggerLevel (m : DrawdownManager) (now : ℚ) (levelIndex : ℕ)
    (level : DrawdownLevel) : DrawdownManager × (ℕ × DrawdownAction) :=
  let m1 := { m with
    triggeredLevels := m.triggeredLevels ++ [levelIndex]
    currentLevel := some (levelIndex + 1) }
  (m1.executeAction now level, (levelIndex, level.action))

/-- Loop body of `DrawdownManager.checkDrawdownLevels`: walks the levels
from index `i`, firing each level whose threshold the current drawdown
reached and whose index is not yet in `triggeredLevels`; returns the final
state and the trace of fired levels in loop order. -/
def checkLevelsAux (now : ℚ) : DrawdownManager → ℕ → List DrawdownLevel →
    DrawdownManager × List (ℕ × DrawdownAction)
  | m, _, [] => (m, [])
  | m, i, level :: rest =>
    if m.currentDrawdown ≤ level.percent ∧ i ∉ m.triggeredLevels then
      let t := m.triggerLevel now i level
      let r := checkLevelsAux now t.1 (i + 1) rest
      (r.1, t.2 :: r.2)
    else
      checkLevelsAux now m (i + 1) rest

/-- `DrawdownManager.checkDrawdownLevels()`: iterates all configured levels
from index 0. -/
def DrawdownManager.checkDrawdownLevels (m : DrawdownManager) (now : ℚ) :
    DrawdownManager × List (ℕ × DrawdownAction) :=
  checkLevelsAux now m 0 m.levels

/-- Capital/peak/drawdown bookkeeping of
`DrawdownManager.updateCapital(newCapital)` before the level check: stores
the new capital, raises the peak when exceeded, recomputes the drawdown
from the current peak, and tracks the most negative drawdown. -/
def DrawdownManager.applyCapital (m : DrawdownManager) (newCapital : ℚ) :
    DrawdownManager :=
  let m1 := { m with currentCapital := newCapital }
  let m2 := if newCapital > m1.peakCapital then { m1 with peakCapital := newCapital } else m1
  let m3 := { m2 with
    currentDrawdown := (m2.currentCapital - m2.peakCapital) / m2.peakCapital }
  if m3.currentDrawdown < m3.maxDrawdownReached then
    { m3 with maxDrawdownReached := m3.currentDrawdown }
  else m3

/-- `DrawdownManager.updateCapital(newCapital)`: the capital bookkeeping of
`applyCapital` followed by `checkDrawdownLevels`. Returns the new state and
the trace of levels fired by this call. -/
def DrawdownManager.updateCapital (m : DrawdownManager) (now : ℚ) (newCapital : ℚ) :
    DrawdownManager × List (ℕ × DrawdownAction) :=
  (m.applyCapital newCapital).checkDrawdownLevels now

/-- Folds a sequence of `updateCapital` calls (pairs of clock value and new
capital), keeping only the state. -/
def DrawdownManager.runUpdates (m : DrawdownManager) (us : List (ℚ × ℚ)) :
    DrawdownManager :=
  us.foldl (fun acc u => (acc.updateCapital u.1 u.2).1) m

/-- `DrawdownManager.isTradingPaused()`: false when not paused; lazily
resumes (clearing the flag) when the deadline has passed. -/
def DrawdownManager.isTradingPaused (m : DrawdownManager) (now : ℚ) :
    DrawdownManager × Bool :=
  if m.isPaused = false then (m, false)
  else if now ≥ m.pauseUntil.getD 0 then
    ({ m with isPaused := false, pauseUntil := none }, false)
  else (m, true)

/-- Levels that a single check fires, read off declaratively: among the
levels from index `start`, those whose threshold the drawdown `dd` reached
and whose index is not in `trig`, in ascending index order, paired with
their configured action. -/
def firedLevels (dd : ℚ) (trig : List ℕ) : ℕ → List DrawdownLevel →
    List (ℕ × DrawdownAction)
  | _, [] => []
  | i, level :: rest =>
    if dd ≤ level.percent ∧ i ∉ trig then
      (i, level.action) :: firedLevels dd trig (i + 1) rest
    else
      firedLevels dd trig (i + 1) rest

/-- The example drawdown configuration of the specification: pause at -5%
for 1800 s, pause-and-reset at -10% for 7200 s, stop at -15%. -/
def exampleDrawdownLevels : List DrawdownLevel :=
  [ { percent := -5/100, action := .pause, duration := some 1800 },
    { percent := -10/100, action := .pause_and_reset, duration := some 7200 },
    { percent := -15/100, action := .stop, duration := none } ]

/-- One open position (value of the `openPositions` map of
`PositionManager`). -/
structure Position where
  pair : String
  entryPrice : ℚ
  entryTime : ℚ
  investedAmount : ℚ
  tokenAmount : ℚ
  currentPrice : ℚ
  unrealizedPnL : ℚ
  unrealizedPnLPercent : ℚ
deriving DecidableEq, Repr

/-- Trade record returned by `PositionManager.closePosition`. -/
structure TradeRecord where
  pair : String
  entryPrice : ℚ
  exitPrice : ℚ
  entryTime : ℚ
  exitTime : ℚ
  investedAmount : ℚ
  tokenAmount : ℚ
  realizedPnL : ℚ
  realizedPnLPercent : ℚ
deriving DecidableEq, Repr

/-- Result of `PositionManager.calculatePositionSize`. -/
structure SizeResult where
  amountUSD : ℚ
  amountToken : ℚ
  percent : ℚ
deriving DecidableEq, Repr

/-- Position-manager state (class `PositionManager`,
`src/risk/position-manager.js`); the insertion-ordered `Map` is an
association list keyed by `pair`. -/
structure PositionManager where
  maxPositionPercent : ℚ
  currentCapital : ℚ
  openPositions : List Position
deriving DecidableEq, Repr

/-- Constructor of `PositionManager` from the configured maximum position
percent and initial capital. -/
def PositionManager.mkInit (maxPositionPercent initialCapital : ℚ) : PositionManager :=
  { maxPositionPercent := maxPositionPercent
    currentCapital := initialCapital
    openPositions := [] }

/-- `PositionManager.updateCapital(newCapital)` (the logged delta is not
modelled). -/
def PositionManager.updateCapital (m : PositionManager) (newCapital : ℚ) :
    PositionManager :=
  { m with currentCapital := newCapital }

/-- Capital locked in open positions (the summation loop of
`getAvailableCapital`). -/
def PositionManager.capitalInPositions (m : PositionManager) : ℚ :=
  (m.openPositions.map Position.investedAmount).sum

/-- `PositionManager.getAvailableCapital()`: total capital minus capital in
open positions. -/
def PositionManager.getAvailableCapital (m : PositionManager) : ℚ :=
  m.currentCapital - m.capitalInPositions

/-- `PositionManager.calculatePositionSize(currentPrice, volatility)`: base
size is available capital times the maximum position percent, scaled down
by `max(0.5, 1 - volatility/0.5)` when a volatility is supplied. -/
def PositionManager.calculatePositionSize (m : PositionManager) (currentPrice : ℚ)
    (volatility : Option ℚ) : SizeResult :=
  let availableCapital := m.getAvailableCapital
  let baseAmount :=
    match volatility with
    | none => availableCapital * m.maxPositionPercent
    | some v => availableCapital * m.maxPositionPercent * max (1/2) (1 - v / (1/2))
  { amountUSD := baseAmount
    amountToken := baseAmount / currentPrice
    percent := baseAmount / m.currentCapital * 100 }

/-- `PositionManager.hasOpenPosition(pair)`. -/
def PositionManager.hasOpenPosition (m : PositionManager) (pair : String) : Bool :=
  m.openPositions.any fun p => p.pair = pair

/-- `PositionManager.openPosition(pair, entryPrice, amountUSD, amountToken)`:
fails without mutation when a position already exists for the pair,
otherwise inserts a fresh position and succeeds. -/
def PositionManager.openPosition (m : PositionManager) (now : ℚ) (pair : String)
    (entryPrice amountUSD amountToken : ℚ) : PositionManager × Bool :=
  if m.hasOpenPosition pair then (m, false)
  else
    ({ m with openPositions := m.openPositions ++
        [{ pair := pair
           entryPrice := entryPrice
           entryTime := now
           investedAmount := amountUSD
           tokenAmount := amountToken
           currentPrice := entryPrice
           unrealizedPnL := 0
           unrealizedPnLPercent := 0 }] }, true)

/-- In-place mutation performed by `updatePosition` on the stored position:
new current price and recomputed unrealized PnL. -/
def mutatePosition (currentPrice : ℚ) (p : Position) : Position :=
  { p with
    currentPrice := currentPrice
    unrealizedPnL := p.tokenAmount * currentPrice - p.investedAmount
    unrealizedPnLPercent :=
      (p.tokenAmount * currentPrice - p.investedAmount) / p.investedAmount * 100 }

/-- `PositionManager.updatePosition(pair, currentPrice)`: returns `none`
when the pair has no open position, otherwise mutates the stored position
and returns it. -/
def PositionManager.updatePosition (m : PositionManager) (pair : String)
    (currentPrice : ℚ) : PositionManager × Option Position :=
  match m.openPositions.find? (fun p => p.pair = pair) with
  | none => (m, none)
  | some position =>
    ({ m with openPositions := m.openPositions.map fun p =>
        if p.pair = pair then mutatePosition currentPrice p else p },
     some (mutatePosition currentPrice position))

/-- `PositionManager.closePosition(pair, exitPrice)`: returns `none` when
the pair has no open position; otherwise folds the realized PnL into the
capital, removes the position, and returns the trade record. -/
def PositionManager.closePosition (m : PositionManager) (now : ℚ) (pair : String)
    (exitPrice : ℚ) : PositionManager × Option TradeRecord :=
  match m.openPositions.find? (fun p => p.pair = pair) with
  | none => (m, none)
  | some position =>
    let exitValue := position.tokenAmount * exitPrice
    let realizedPnL := exitValue - position.investedAmount
    let m1 := m.updateCapital (m.currentCapital + realizedPnL)
    let m2 := { m1 with
      openPositions := m1.openPositions.eraseP fun p => p.pair = pair }
    (m2, some { pair := pair
                entryPrice := position.entryPrice
                exitPrice := exitPrice
                entryTime := position.entryTime
                exitTime := now
                investedAmount := position.investedAmount
                tokenAmount := position.tokenAmount
                realizedPnL := realizedPnL
                realizedPnLPercent := realizedPnL / position.investedAmount * 100 })

/-- `PositionManager.canOpenPosition()`: false when the available capital
is below the fixed 10-dollar minimum position size. -/
def PositionManager.canOpenPosition (m : PositionManager) : Bool :=
  if m.getAvailableCapital < 10 then false else true

/-- States of `PositionManager` reachable through the documented protocol:
construction with a valid configuration (nonnegative capital, maximum
position percent between 0 and 1), opening a position sized by
`calculatePositionSize` behind the `canOpenPosition` gate at a positive
price and nonnegative volatility, updating a position, and closing a
position at a nonnegative exit price. -/
inductive ReachablePM : PositionManager → Prop where
  | init (mpp cap : ℚ) (hcap : 0 ≤ cap) (h0 : 0 ≤ mpp) (h1 : mpp ≤ 1) :
      ReachablePM (PositionManager.mkInit mpp cap)
  | openSized (m : PositionManager) (now : ℚ) (pair : String) (price : ℚ)
      (vol : Option ℚ) (hm : ReachablePM m) (hp : 0 < price)
      (hv : ∀ v, vol = some v → 0 ≤ v) (hgate : m.canOpenPosition = true) :
      ReachablePM (m.openPosition now pair price
        (m.calculatePositionSize price vol).amountUSD
        (m.calculatePositionSize price vol).amountToken).1
  | updatePos (m : PositionManager) (pair : String) (price : ℚ)
      (hm : ReachablePM m) : ReachablePM (m.updatePosition pair price).1
  | closePos (m : PositionManager) (now : ℚ) (pair : String) (price : ℚ)
      (hm : ReachablePM m) (hp : 0 ≤ price) :
      ReachablePM (m.closePosition now pair price).1

/-- Market-data snapshot consumed by the strategies; absent optional keys
are `none`. -/
structure MarketData where
  price : Option ℚ
  volume : Option ℚ
  liquidity : Option ℚ
  volatility : Option ℚ
  avgVolume : Option ℚ
  priceHistory : Option (List ℚ)
  timestamp : Option String
deriving DecidableEq, Repr

/-- JavaScript truthiness of a possibly absent number: absent and zero are
falsy. -/
def truthyQ : Option ℚ → Bool
  | none => false
  | some x => x ≠ 0

/-- JavaScript truthiness of a possibly absent string: absent and empty are
falsy. -/
def truthyS : Option String → Bool
  | none => false
  | some s => s ≠ ""

/-- `BaseStrategy.validateMarketData(marketData)`: the required fields
`price`, `volume`, `liquidity`, `timestamp` must all be truthy. -/
def validateMarketData (md : MarketData) : Bool :=
  truthyQ md.price && truthyQ md.volume && truthyQ md.liquidity && truthyS md.timestamp

/-- `GridTradingStrategy.canTrade(marketData)` with the configured minimum
liquidity passed explicitly: rejects invalid market data, truthy
volatility above 0.15, and liquidity below the minimum. -/
def GridTradingStrategy.canTrade (minLiquidity : ℚ) (md : MarketData) : Bool :=
  if validateMarketData md = false then false
  else if truthyQ md.volatility ∧ md.volatility.getD 0 > 15/100 then false
  else if md.liquidity.getD 0 < minLiquidity then false
  else true

/-- `MomentumStrategy.canTrade(marketData)` with the configured minimum
24-hour volume passed explicitly: rejects invalid market data, truthy
volatility below 0.05, and volume below the minimum. -/
def MomentumStrategy.canTrade (minVolume24h : ℚ) (md : MarketData) : Bool :=
  if validateMarketData md = false then false
  else if truthyQ md.volatility ∧ md.volatility.getD 0 < 5/100 then false
  else if md.volume.getD 0 < minVolume24h then false
  else true

/-- A market snapshot with all required fields present but volume 0 —
valid per the MarketData interface (volume ≥ 0), yet falsy in JavaScript. -/
def sampleZeroVolumeMarketData : MarketData :=
  { price := some 100
    volume := some 0
    liquidity := some 5000
    volatility := none
    avgVolume := none
    priceHistory := none
    timestamp := some "2024-01-01T00:00:00Z" }

/-- Strategy-manager state (class `StrategyManager`,
`src/strategies/base.js`): the activation flags of the two owned
strategies, the key of the current strategy, the time of the last
successful switch, and the switch cooldown in milliseconds. -/
structure StrategyManager where
  gridActive : Bool
  momentumActive : Bool
  currentStrategy : Option String
  lastSwitch : Option ℚ
  switchCooldown : ℚ
deriving DecidableEq, Repr

/-- Constructor of `StrategyManager`: no strategy active, no last switch,
cooldown 300000 ms (5 minutes). -/
def StrategyManager.mkInit : StrategyManager :=
  { gridActive := false
    momentumActive := false
    currentStrategy := none
    lastSwitch := none
    switchCooldown := 300000 }

/-- `StrategyManager.selectStrategy(strategyName)`: rejected without state
change while a truthy `lastSwitch` is within the cooldown, or when the name
is not a known strategy; otherwise deactivates the prior strategy,
activates the requested one, and records the switch time. -/
def StrategyManager.selectStrategy (sm : StrategyManager) (now : ℚ)
    (strategyName : String) : StrategyManager × Bool :=
  if truthyQ sm.lastSwitch ∧ now - sm.lastSwitch.getD 0 < sm.switchCooldown then
    (sm, false)
  else if strategyName ≠ "grid" ∧ strategyName ≠ "momentum" then (sm, false)
  else
    let sm1 :=
      match sm.currentStrategy with
      | some "grid" => { sm with gridActive := false }
      | some "momentum" => { sm with momentumActive := false }
      | _ => sm
    let sm2 :=
      if strategyName = "grid" then { sm1 with gridActive := true }
      else { sm1 with momentumActive := true }
    ({ sm2 with currentStrategy := some strategyName, lastSwitch := some now }, true)

/-- `StrategyManager.forceSwitch(strategyName)`: clears `lastSwitch` to
bypass the cooldown, selects, and restores the original `lastSwitch` when
the selection fails. -/
def StrategyManager.forceSwitch (sm : StrategyManager) (now : ℚ)
    (strategyName : String) : StrategyManager × Bool :=
  let originalSwitch := sm.lastSwitch
  let r := StrategyManager.selectStrategy { sm with lastSwitch := none } now strategyName
  if r.2 then r
  else ({ r.1 with lastSwitch := originalSwitch }, false)

/-! ## Lemmas about the trailing stop-loss -/

theorem tsl_update_trailing (s : TrailingStopLoss) (p : ℚ) :
    ((s.update p).1).trailingPercent = s.trailingPercent := by
  unfold TrailingStopLoss.update
  dsimp only
  split_ifs <;> rfl

theorem tsl_update_highest (s : TrailingStopLoss) (p : ℚ) :
    ((s.update p).1).highestPrice = max s.highestPrice p := by
  unfold TrailingStopLoss.update
  dsimp only
  split_ifs with h1 h2 h2
  · simpa using (max_eq_right (le_of_lt h1)).symm
  · simpa using (max_eq_right (le_of_lt h1)).symm
  · simpa using (max_eq_left (not_lt.mp h1)).symm
  · simpa using (max_eq_left (not_lt.mp h1)).symm

theorem tsl_update_inv (s : TrailingStopLoss) (p : ℚ)
    (hinv : s.stopPrice = s.highestPrice * (1 - s.trailingPercent)) :
    ((s.update p).1).stopPrice =
      ((s.update p).1).highestPrice * (1 - ((s.update p).1).trailingPercent) := by
  unfold TrailingStopLoss.update
  dsimp only
  split_ifs with h1 h2 h2 <;> simp [hinv]

theorem tsl_update_stop_mono (s : TrailingStopLoss) (p : ℚ)
    (ht : s.trailingPercent ≤ 1)
    (hinv : s.stopPrice = s.highestPrice * (1 - s.trailingPercent)) :
    s.stopPrice ≤ ((s.update p).1).stopPrice := by
  unfold TrailingStopLoss.update
  dsimp only
  split_ifs with h1 h2 h2
  · rw [hinv]
    show s.highestPrice * (1 - s.trailingPercent) ≤ p * (1 - s.trailingPercent)
    nlinarith [mul_nonneg (sub_nonneg.mpr (le_of_lt h1)) (sub_nonneg.mpr ht)]
  · rw [hinv]
    show s.highestPrice * (1 - s.trailingPercent) ≤ p * (1 - s.trailingPercent)
    nlinarith [mul_nonneg (sub_nonneg.mpr (le_of_lt h1)) (sub_nonneg.mpr ht)]
  · exact le_refl s.stopPrice
  · exact le_refl s.stopPrice

theorem tsl_update_latch (s : TrailingStopLoss) (p : ℚ)
    (h : s.isTriggered = true) : ((s.update p).1).isTriggered = true := by
  unfold TrailingStopLoss.update
  dsimp only
  split_ifs <;> simp_all

theorem tsl_update_stopPrice (s : TrailingStopLoss) (p : ℚ) :
    ((s.update p).1).stopPrice =
      if p > s.highestPrice then p * (1 - s.trailingPercent) else s.stopPrice := by
  unfold TrailingStopLoss.update
  dsimp only
  split_ifs <;> rfl

theorem tsl_run_bundle (ps : List ℚ) (s : TrailingStopLoss)
    (ht : s.trailingPercent ≤ 1)
    (hinv : s.stopPrice = s.highestPrice * (1 - s.trailingPercent)) :
    s.stopPrice ≤ (s.run ps).stopPrice
    ∧ (s.run ps).trailingPercent = s.trailingPercent
    ∧ (s.run ps).stopPrice = (s.run ps).highestPrice * (1 - (s.run ps).trailingPercent)
    ∧ (s.isTriggered = true → (s.run ps).isTriggered = true) := by
  induction ps generalizing s with
  | nil =>
    refine ⟨le_refl _, rfl, hinv, fun h => h⟩
  | cons p ps ih =>
    have hstep : s.run (p :: ps) = ((s.update p).1).run ps := rfl
    have ht1 : ((s.update p).1).trailingPercent ≤ 1 := by
      rw [tsl_update_trailing]; exact ht
    have hinv1 := tsl_update_inv s p hinv
    obtain ⟨h1, h2, h3, h4⟩ := ih ((s.update p).1) ht1 hinv1
    refine ⟨?_, ?_, ?_, ?_⟩
    · rw [hstep]
      exact le_trans (tsl_update_stop_mono s p ht hinv) h1
    · rw [hstep, h2, tsl_update_trailing]
    · rw [hstep]; exact h3
    · intro h
      rw [hstep]
      exact h4 (tsl_update_latch s p h)

/-- C5: for a trailing stop-loss with a valid trailing percent (at most 1)
and a stop derived from its highest price, the stop price is non-decreasing
over any sequence of `update` calls, the triggered flag is a one-way latch,
the highest price is raised to the maximum with the new price, and the stop
is recomputed as `highestPrice * (1 - trailingPercent)` exactly when the
price makes a new high. -/
theorem trailing_stop_monotone_and_latch (s : TrailingStopLoss) (ps : List ℚ) (p : ℚ)
    (ht : s.trailingPercent ≤ 1)
    (hinv : s.stopPrice = s.highestPrice * (1 - s.trailingPercent)) :
    s.stopPrice ≤ (s.run ps).stopPrice
    ∧ (s.isTriggered = true → (s.run ps).isTriggered = true)
    ∧ ((s.update p).1).highestPrice = max s.highestPrice p
    ∧ (p > s.highestPrice → ((s.update p).1).stopPrice = p * (1 - s.trailingPercent))
    ∧ (¬ p > s.highestPrice → ((s.update p).1).stopPrice = s.stopPrice) := by
  obtain ⟨h1, _, _, h4⟩ := tsl_run_bundle ps s ht hinv
  refine ⟨h1, h4, tsl_update_highest s p, ?_, ?_⟩
  · intro h
    rw [tsl_update_stopPrice, if_pos h]
  · intro h
    rw [tsl_update_stopPrice, if_neg h]

/-- Witness for C5 at entry price 100, trailing percent 0.03, the price
sequence [110, 106] and the single price 110. -/
theorem trailing_stop_monotone_and_latch_witness :
    ((TrailingStopLoss.mkInit 100 (3/100)).trailingPercent ≤ 1
      ∧ (TrailingStopLoss.mkInit 100 (3/100)).stopPrice =
          (TrailingStopLoss.mkInit 100 (3/100)).highestPrice *
            (1 - (TrailingStopLoss.mkInit 100 (3/100)).trailingPercent))
    ∧ ((TrailingStopLoss.mkInit 100 (3/100)).stopPrice ≤
          ((TrailingStopLoss.mkInit 100 (3/100)).run [110, 106]).stopPrice
      ∧ ((TrailingStopLoss.mkInit 100 (3/100)).isTriggered = true →
          ((TrailingStopLoss.mkInit 100 (3/100)).run [110, 106]).isTriggered = true)
      ∧ (((TrailingStopLoss.mkInit 100 (3/100)).update 110).1).highestPrice =
          max (TrailingStopLoss.mkInit 100 (3/100)).highestPrice 110
      ∧ ((110 : ℚ) > (TrailingStopLoss.mkInit 100 (3/100)).highestPrice →
          (((TrailingStopLoss.mkInit 100 (3/100)).update 110).1).stopPrice =
            110 * (1 - (TrailingStopLoss.mkInit 100 (3/100)).trailingPercent))
      ∧ (¬ (110 : ℚ) > (TrailingStopLoss.mkInit 100 (3/100)).highestPrice →
          (((TrailingStopLoss.mkInit 100 (3/100)).update 110).1).stopPrice =
            (TrailingStopLoss.mkInit 100 (3/100)).stopPrice)) :=
  ⟨⟨by norm_num [TrailingStopLoss.mkInit], rfl⟩,
   trailing_stop_monotone_and_latch (TrailingStopLoss.mkInit 100 (3/100)) [110, 106] 110
     (by norm_num [TrailingStopLoss.mkInit]) rfl⟩

/-! ## Lemmas about the tiered take-profit levels -/

theorem checkLevelsList_fst (price : ℚ) (ls : List TPLevel) :
    (checkLevelsList price ls).1 =
      ls.map fun l =>
        if l.isTriggered = false ∧ price ≥ l.targetPrice
        then { l with isTriggered := true } else l := by
  induction ls with
  | nil => rfl
  | cons l ls ih =>
    unfold checkLevelsList
    dsimp only
    split_ifs with h <;> simp [ih, h]

theorem checkLevelsList_snd (price : ℚ) (ls : List TPLevel) :
    (checkLevelsList price ls).2 =
      (ls.filter fun l => decide (l.isTriggered = false ∧ price ≥ l.targetPrice)).map
        fun l => { l with isTriggered := true } := by
  induction ls with
  | nil => rfl
  | cons l ls ih =>
    unfold checkLevelsList
    dsimp only
    split_ifs with h <;> simp [ih, h, List.filter_cons]

/-- C6: a `checkLevels` call turns on exactly the previously untriggered
levels whose target price the current price reached (so a triggered level
never fires again and the flag never reverts), the returned list is exactly
those newly triggered levels, `allLevelsExecuted` is true iff every level
is triggered, and in the spec example (entry 100, levels +10 percent, +20
percent, +30 percent, one jump to 135) all three levels fire in one call. -/
theorem take_profit_levels_correct (tp : TakeProfitLevels) (price : ℚ) :
    ((tp.checkLevels price).1).levels =
      (tp.levels.map fun l =>
        if l.isTriggered = false ∧ price ≥ l.targetPrice
        then { l with isTriggered := true } else l)
    ∧ (tp.checkLevels price).2 =
      ((tp.levels.filter fun l =>
          decide (l.isTriggered = false ∧ price ≥ l.targetPrice)).map
        fun l => { l with isTriggered := true })
    ∧ (tp.allLevelsExecuted = true ↔ ∀ l ∈ tp.levels, l.isTriggered = true)
    ∧ (((TakeProfitLevels.mkInit 100
          [(1/10, 1/4), (2/10, 1/2), (3/10, 1/4)]).checkLevels 135).1).allLevelsExecuted
        = true
    ∧ ((TakeProfitLevels.mkInit 100
          [(1/10, 1/4), (2/10, 1/2), (3/10, 1/4)]).checkLevels 135).2.length = 3 := by
  refine ⟨?_, ?_, ?_, ?_, ?_⟩
  · show (checkLevelsList price tp.levels).1 = _
    exact checkLevelsList_fst price tp.levels
  · show (checkLevelsList price tp.levels).2 = _
    exact checkLevelsList_snd price tp.levels
  · simp [TakeProfitLevels.allLevelsExecuted, List.all_eq_true]
  · norm_num [TakeProfitLevels.mkInit, mkTPLevels, TakeProfitLevels.checkLevels,
      checkLevelsList, TakeProfitLevels.allLevelsExecuted]
  · norm_num [TakeProfitLevels.mkInit, mkTPLevels, TakeProfitLevels.checkLevels,
      checkLevelsList]

/-! ## Lemmas about the exit manager -/

/-- C2: when the trailing stop-loss of a managed pair triggers in an
`ExitManager.update` call, the result is a full stop-loss exit at the
current price with the PnL percent from the entry price, and the
take-profit state of that pair is left exactly as it was (no level's
triggered flag changes), even if the same price also satisfies take-profit
targets. -/
theorem exit_update_stop_loss_short_circuit (em : ExitManager) (pair : String)
    (price : ℚ) (ex : ExitRecord)
    (h1 : em.activeExits pair = some ex)
    (h2 : (ex.stopLoss.update price).2 = true) :
    (em.update pair price).2 =
      { shouldExit := true
        reason := some "stop_loss"
        exitPrice := some price
        pnlPercent := some ((price - ex.entryPrice) / ex.entryPrice * 100)
        partialExit := none }
    ∧ (((em.update pair price).1).activeExits pair).map ExitRecord.takeProfit =
        some ex.takeProfit := by
  unfold ExitManager.update
  rw [h1]
  dsimp only
  rw [if_pos h2]
  exact ⟨rfl, by simp [ExitManager.setExit]⟩

/-- Witness for C2: `sampleExitManager` at price 95, where the trailing
stop (at 97) and the sample take-profit target (at 90) are both satisfied
by the same price, yet the call returns the stop-loss exit and leaves the
take-profit state untouched. -/
theorem exit_update_stop_loss_short_circuit_witness :
    (sampleExitManager.activeExits "ETH/USDC" = some sampleExitRecord
      ∧ ((sampleExitRecord.stopLoss.update 95).2 = true))
    ∧ ((sampleExitManager.update "ETH/USDC" 95).2 =
        { shouldExit := true
          reason := some "stop_loss"
          exitPrice := some 95
          pnlPercent := some ((95 - sampleExitRecord.entryPrice) /
            sampleExitRecord.entryPrice * 100)
          partialExit := none }
      ∧ (((sampleExitManager.update "ETH/USDC" 95).1).activeExits "ETH/USDC").map
          ExitRecord.takeProfit = some sampleExitRecord.takeProfit) :=
  ⟨⟨by simp [sampleExitManager], by
      norm_num [sampleExitRecord, TrailingStopLoss.mkInit, TrailingStopLoss.update]⟩,
   exit_update_stop_loss_short_circuit sampleExitManager "ETH/USDC" 95 sampleExitRecord
     (by simp [sampleExitManager])
     (by norm_num [sampleExitRecord, TrailingStopLoss.mkInit, TrailingStopLoss.update])⟩

/-! ## Lemmas about the drawdown circuit breaker -/

theorem pauseTrading_preserve (m : DrawdownManager) (now : ℚ) (d : Option ℚ) :
    (m.pauseTrading now d).peakCapital = m.peakCapital
    ∧ (m.pauseTrading now d).currentCapital = m.currentCapital
    ∧ (m.pauseTrading now d).currentDrawdown = m.currentDrawdown
    ∧ (m.pauseTrading now d).levels = m.levels
    ∧ (m.pauseTrading now d).triggeredLevels = m.triggeredLevels := by
  unfold DrawdownManager.pauseTrading
  cases d with
  | none => exact ⟨rfl, rfl, rfl, rfl, rfl⟩
  | some x =>
    dsimp only
    split_ifs <;> exact ⟨rfl, rfl, rfl, rfl, rfl⟩

theorem executeAction_preserve (m : DrawdownManager) (now : ℚ) (level : DrawdownLevel) :
    (m.executeAction now level).peakCapital = m.peakCapital
    ∧ (m.executeAction now level).currentCapital = m.currentCapital
    ∧ (m.executeAction now level).currentDrawdown = m.currentDrawdown
    ∧ (m.executeAction now level).levels = m.levels
    ∧ (m.executeAction now level).triggeredLevels = m.triggeredLevels := by
  unfold DrawdownManager.executeAction
  cases level.action with
  | pause => exact pauseTrading_preserve m now level.duration
  | pause_and_reset => exact pauseTrading_preserve m now level.duration
  | stop => exact ⟨rfl, rfl, rfl, rfl, rfl⟩

theorem triggerLevel_state (m : DrawdownManager) (now : ℚ) (i : ℕ)
    (level : DrawdownLevel) :
    (m.triggerLevel now i level).1.peakCapital = m.peakCapital
    ∧ (m.triggerLevel now i level).1.currentCapital = m.currentCapital
    ∧ (m.triggerLevel now i level).1.currentDrawdown = m.currentDrawdown
    ∧ (m.triggerLevel now i level).1.levels = m.levels
    ∧ (m.triggerLevel now i level).1.triggeredLevels = m.triggeredLevels ++ [i]
    ∧ (m.triggerLevel now i level).2 = (i, level.action) := by
  unfold DrawdownManager.triggerLevel
  dsimp only
  obtain ⟨p1, p2, p3, p4, p5⟩ := executeAction_preserve
    { m with triggeredLevels := m.triggeredLevels ++ [i], currentLevel := some (i + 1) }
    now level
  exact ⟨p1, p2, p3, p4, p5, rfl⟩

theorem checkLevelsAux_preserve (now : ℚ) (ls : List DrawdownLevel) :
    ∀ (m : DrawdownManager) (i : ℕ),
      (checkLevelsAux now m i ls).1.peakCapital = m.peakCapital
      ∧ (checkLevelsAux now m i ls).1.currentCapital = m.currentCapital
      ∧ (checkLevelsAux now m i ls).1.currentDrawdown = m.currentDrawdown
      ∧ (checkLevelsAux now m i ls).1.levels = m.levels
      ∧ ∀ j, j ∈ m.triggeredLevels → j ∈ (checkLevelsAux now m i ls).1.triggeredLevels := by
  induction ls with
  | nil => exact fun m i => ⟨rfl, rfl, rfl, rfl, fun j h => h⟩
  | cons l ls ih =>
    intro m i
    unfold checkLevelsAux
    dsimp only
    split_ifs with h
    · obtain ⟨t1, t2, t3, t4, t5, _⟩ := triggerLevel_state m now i l
      obtain ⟨q1, q2, q3, q4, q5⟩ := ih (m.triggerLevel now i l).1 (i + 1)
      refine ⟨q1.trans t1, q2.trans t2, q3.trans t3, q4.trans t4, fun j hj => ?_⟩
      exact q5 j (t5 ▸ List.mem_append_left _ hj)
    · exact ih m (i + 1)

theorem firedLevels_append_lt (dd : ℚ) (trig : List ℕ) (j : ℕ) :
    ∀ (ls : List DrawdownLevel) (k : ℕ), j < k →
      firedLevels dd (trig ++ [j]) k ls = firedLevels dd trig k ls := by
  intro ls
  induction ls with
  | nil => intros; rfl
  | cons l ls ih =>
    intro k hk
    unfold firedLevels
    have hne : k ∉ trig ++ [j] ↔ k ∉ trig := by
      simp only [List.mem_append, List.mem_singleton]
      constructor
      · intro h h2
        exact h (Or.inl h2)
      · intro h h2
        rcases h2 with h2 | h2
        · exact h h2
        · omega
    by_cases hc : dd ≤ l.percent ∧ k ∉ trig
    · rw [if_pos ⟨hc.1, hne.mpr hc.2⟩, if_pos hc, ih (k + 1) (by omega)]
    · rw [if_neg (fun hcc => hc ⟨hcc.1, hne.mp hcc.2⟩), if_neg hc, ih (k + 1) (by omega)]

theorem checkLevelsAux_trace (now : ℚ) (ls : List DrawdownLevel) :
    ∀ (m : DrawdownManager) (i : ℕ),
      (checkLevelsAux now m i ls).2 =
        firedLevels m.currentDrawdown m.triggeredLevels i ls := by
  induction ls with
  | nil => exact fun m i => rfl
  | cons l ls ih =>
    intro m i
    unfold checkLevelsAux firedLevels
    dsimp only
    split_ifs with h
    · obtain ⟨_, _, t3, _, t5, t6⟩ := triggerLevel_state m now i l
      rw [ih (m.triggerLevel now i l).1 (i + 1), t3, t5, t6]
      rw [firedLevels_append_lt m.currentDrawdown m.triggeredLevels i ls (i + 1)
        (Nat.lt_succ_self i)]
    · exact ih m (i + 1)

theorem applyCapital_state (m : DrawdownManager) (x : ℚ) :
    (m.applyCapital x).peakCapital = max m.peakCapital x
    ∧ (m.applyCapital x).currentCapital = x
    ∧ (m.applyCapital x).currentDrawdown =
        (x - max m.peakCapital x) / max m.peakCapital x
    ∧ (m.applyCapital x).levels = m.levels
    ∧ (m.applyCapital x).triggeredLevels = m.triggeredLevels := by
  unfold DrawdownManager.applyCapital
  dsimp only
  split_ifs with h1 h2 h2
  · exact ⟨(max_eq_right (le_of_lt h1)).symm, rfl,
      by rw [max_eq_right (le_of_lt h1)], rfl, rfl⟩
  · exact ⟨(max_eq_right (le_of_lt h1)).symm, rfl,
      by rw [max_eq_right (le_of_lt h1)], rfl, rfl⟩
  · exact ⟨(max_eq_left (not_lt.mp h1)).symm, rfl,
      by rw [max_eq_left (not_lt.mp h1)], rfl, rfl⟩
  · exact ⟨(max_eq_left (not_lt.mp h1)).symm, rfl,
      by rw [max_eq_left (not_lt.mp h1)], rfl, rfl⟩

theorem updateCapital_state (m : DrawdownManager) (now x : ℚ) :
    (m.updateCapital now x).1.peakCapital = max m.peakCapital x
    ∧ (m.updateCapital now x).1.currentCapital = x
    ∧ (m.updateCapital now x).1.currentDrawdown =
        (x - max m.peakCapital x) / max m.peakCapital x
    ∧ (m.updateCapital now x).1.levels = m.levels
    ∧ ∀ j, j ∈ m.triggeredLevels → j ∈ (m.updateCapital now x).1.triggeredLevels := by
  obtain ⟨a1, a2, a3, a4, a5⟩ := applyCapital_state m x
  obtain ⟨q1, q2, q3, q4, q5⟩ :=
    checkLevelsAux_preserve now (m.applyCapital x).levels (m.applyCapital x) 0
  exact ⟨q1.trans a1, q2.trans a2, q3.trans a3, q4.trans a4,
    fun j hj => q5 j (a5 ▸ hj)⟩

theorem updateCapital_trace (m : DrawdownManager) (now x : ℚ) :
    (m.updateCapital now x).2 =
      firedLevels ((m.updateCapital now x).1.currentDrawdown)
        m.triggeredLevels 0 m.levels := by
  obtain ⟨a1, a2, a3, a4, a5⟩ := applyCapital_state m x
  obtain ⟨_, _, q3, _, _⟩ :=
    checkLevelsAux_preserve now (m.applyCapital x).levels (m.applyCapital x) 0
  show ((m.applyCapital x).checkDrawdownLevels now).2 = _
  unfold DrawdownManager.checkDrawdownLevels
  rw [checkLevelsAux_trace now (m.applyCapital x).levels (m.applyCapital x) 0, a4, a5]
  congr 1
  exact (q3.trans rfl).symm

theorem firedLevels_ge (dd : ℚ) (trig : List ℕ) :
    ∀ (ls : List DrawdownLevel) (k : ℕ) (p : ℕ × DrawdownAction),
      p ∈ firedLevels dd trig k ls → k ≤ p.1 := by
  intro ls
  induction ls with
  | nil => intro k p h; simp [firedLevels] at h
  | cons l ls ih =>
    intro k p h
    unfold firedLevels at h
    split_ifs at h with hc
    · rcases List.mem_cons.mp h with h1 | h1
      · subst h1; exact le_refl k
      · exact le_trans (Nat.le_succ k) (ih (k + 1) p h1)
    · exact le_trans (Nat.le_succ k) (ih (k + 1) p h)

theorem firedLevels_pairwise (dd : ℚ) (trig : List ℕ) :
    ∀ (ls : List DrawdownLevel) (k : ℕ),
      List.Pairwise (fun p q : ℕ × DrawdownAction => p.1 < q.1)
        (firedLevels dd trig k ls) := by
  intro ls
  induction ls with
  | nil => intro k; simp [firedLevels]
  | cons l ls ih =>
    intro k
    unfold firedLevels
    split_ifs with hc
    · exact List.Pairwise.cons
        (fun q hq => lt_of_lt_of_le (Nat.lt_succ_self k) (firedLevels_ge dd trig ls (k + 1) q hq))
        (ih (k + 1))
    · exact ih (k + 1)

theorem firedLevels_not_mem (dd : ℚ) (trig : List ℕ) (i : ℕ) (a : DrawdownAction)
    (hi : i ∈ trig) :
    ∀ (ls : List DrawdownLevel) (k : ℕ), (i, a) ∉ firedLevels dd trig k ls := by
  intro ls
  induction ls with
  | nil => intro k h; simp [firedLevels] at h
  | cons l ls ih =>
    intro k h
    unfold firedLevels at h
    split_ifs at h with hc
    · rcases List.mem_cons.mp h with h1 | h1
      · have hik : i = k := congrArg Prod.fst h1
        exact hc.2 (hik ▸ hi)
      · exact ih (k + 1) h1
    · exact ih (k + 1) h

theorem runUpdates_peak_pos (us : List (ℚ × ℚ)) :
    ∀ m : DrawdownManager, 0 < m.peakCapital → 0 < (m.runUpdates us).peakCapital := by
  induction us with
  | nil => exact fun m h => h
  | cons u us ih =>
    intro m h
    show 0 < (((m.updateCapital u.1 u.2).1).runUpdates us).peakCapital
    apply ih
    rw [(updateCapital_state m u.1 u.2).1]
    exact lt_of_lt_of_le h (le_max_left _ _)

theorem runUpdates_triggered_mono (us : List (ℚ × ℚ)) :
    ∀ (m : DrawdownManager) (j : ℕ),
      j ∈ m.triggeredLevels → j ∈ (m.runUpdates us).triggeredLevels := by
  induction us with
  | nil => exact fun m j h => h
  | cons u us ih =>
    intro m j h
    show j ∈ (((m.updateCapital u.1 u.2).1).runUpdates us).triggeredLevels
    exact ih _ j ((updateCapital_state m u.1 u.2).2.2.2.2 j h)

/-- C1: along any sequence of `updateCapital` calls from a freshly
constructed `DrawdownManager` with positive initial capital, the peak
capital is non-decreasing and is raised exactly when the new capital
exceeds it (it becomes the maximum of the old peak and the new capital),
and after every call the drawdown equals
`(currentCapital - peakCapital) / peakCapital` and is nonpositive. -/
theorem drawdown_peak_monotone_dd_nonpos (init : ℚ) (levels : List DrawdownLevel)
    (us : List (ℚ × ℚ)) (now x : ℚ) (h : 0 < init) :
    ((DrawdownManager.mkInit init levels).runUpdates us).peakCapital ≤
      ((((DrawdownManager.mkInit init levels).runUpdates us).updateCapital now x).1).peakCapital
    ∧ ((((DrawdownManager.mkInit init levels).runUpdates us).updateCapital now x).1).peakCapital
        = max ((DrawdownManager.mkInit init levels).runUpdates us).peakCapital x
    ∧ ((((DrawdownManager.mkInit init levels).runUpdates us).updateCapital now x).1).currentDrawdown
        = (((((DrawdownManager.mkInit init levels).runUpdates us).updateCapital now x).1).currentCapital
            - ((((DrawdownManager.mkInit init levels).runUpdates us).updateCapital now x).1).peakCapital)
          / ((((DrawdownManager.mkInit init levels).runUpdates us).updateCapital now x).1).peakCapital
    ∧ ((((DrawdownManager.mkInit init levels).runUpdates us).updateCapital now x).1).currentDrawdown
        ≤ 0 := by
  have hpos : 0 < ((DrawdownManager.mkInit init levels).runUpdates us).peakCapital :=
    runUpdates_peak_pos us _ h
  obtain ⟨e1, e2, e3, _, _⟩ :=
    updateCapital_state ((DrawdownManager.mkInit init levels).runUpdates us) now x
  refine ⟨?_, e1, ?_, ?_⟩
  · rw [e1]
    exact le_max_left _ _
  · rw [e1, e2, e3]
  · rw [e3]
    apply div_nonpos_of_nonpos_of_nonneg
    · exact sub_nonpos.mpr (le_max_right _ _)
    · exact le_of_lt (lt_of_lt_of_le hpos (le_max_left _ _))

/-- Witness for C1 at initial capital 100, the example drawdown levels, one
prior update dropping the capital to 90, and a further update to 95. -/
theorem drawdown_peak_monotone_dd_nonpos_witness :
    (0 : ℚ) < 100
    ∧ (((DrawdownManager.mkInit 100 exampleDrawdownLevels).runUpdates [(0, 90)]).peakCapital ≤
        ((((DrawdownManager.mkInit 100 exampleDrawdownLevels).runUpdates [(0, 90)]).updateCapital 1 95).1).peakCapital
      ∧ ((((DrawdownManager.mkInit 100 exampleDrawdownLevels).runUpdates [(0, 90)]).updateCapital 1 95).1).peakCapital
          = max ((DrawdownManager.mkInit 100 exampleDrawdownLevels).runUpdates [(0, 90)]).peakCapital 95
      ∧ ((((DrawdownManager.mkInit 100 exampleDrawdownLevels).runUpdates [(0, 90)]).updateCapital 1 95).1).currentDrawdown
          = (((((DrawdownManager.mkInit 100 exampleDrawdownLevels).runUpdates [(0, 90)]).updateCapital 1 95).1).currentCapital
              - ((((DrawdownManager.mkInit 100 exampleDrawdownLevels).runUpdates [(0, 90)]).updateCapital 1 95).1).peakCapital)
            / ((((DrawdownManager.mkInit 100 exampleDrawdownLevels).runUpdates [(0, 90)]).updateCapital 1 95).1).peakCapital
      ∧ ((((DrawdownManager.mkInit 100 exampleDrawdownLevels).runUpdates [(0, 90)]).updateCapital 1 95).1).currentDrawdown
          ≤ 0) :=
  ⟨by norm_num,
   drawdown_peak_monotone_dd_nonpos 100 exampleDrawdownLevels [(0, 90)] 1 95 (by norm_num)⟩

/-- C3: a drawdown level's action executes at most once per run: once index
`i` is recorded in `triggeredLevels`, it stays recorded across any further
sequence of `updateCapital` calls, and no later `updateCapital` call fires
level `i` again (no pair `(i, a)` appears in the fired-level trace), even
when the drawdown again satisfies the level's threshold. -/
theorem drawdown_level_one_shot (m : DrawdownManager) (us : List (ℚ × ℚ))
    (now x : ℚ) (i : ℕ) (h : i ∈ m.triggeredLevels) :
    i ∈ (m.runUpdates us).triggeredLevels
    ∧ ∀ a : DrawdownAction, (i, a) ∉ ((m.runUpdates us).updateCapital now x).2 := by
  have hmem := runUpdates_triggered_mono us m i h
  refine ⟨hmem, fun a hin => ?_⟩
  rw [updateCapital_trace] at hin
  exact firedLevels_not_mem _ _ i a hmem _ 0 hin

/-- Witness for C3: the drop to 94 triggers level 0; after the capital
oscillates back to 100, a second drop to 94 does not fire level 0 again. -/
theorem drawdown_level_one_shot_witness :
    0 ∈ (((DrawdownManager.mkInit 100 exampleDrawdownLevels).updateCapital 0 94).1).triggeredLevels
    ∧ (0 ∈ ((((DrawdownManager.mkInit 100 exampleDrawdownLevels).updateCapital 0 94).1).runUpdates [(1, 100)]).triggeredLevels
      ∧ ∀ a : DrawdownAction,
          (0, a) ∉ (((((DrawdownManager.mkInit 100 exampleDrawdownLevels).updateCapital 0 94).1).runUpdates [(1, 100)]).updateCapital 2 94).2) :=
  ⟨by norm_num [DrawdownManager.mkInit, DrawdownManager.updateCapital,
      DrawdownManager.applyCapital, DrawdownManager.checkDrawdownLevels, checkLevelsAux,
      DrawdownManager.triggerLevel, DrawdownManager.executeAction,
      DrawdownManager.pauseTrading, exampleDrawdownLevels],
   drawdown_level_one_shot (((DrawdownManager.mkInit 100 exampleDrawdownLevels).updateCapital 0 94).1)
     [(1, 100)] 2 94 0
     (by norm_num [DrawdownManager.mkInit, DrawdownManager.updateCapital,
        DrawdownManager.applyCapital, DrawdownManager.checkDrawdownLevels, checkLevelsAux,
        DrawdownManager.triggerLevel, DrawdownManager.executeAction,
        DrawdownManager.pauseTrading, exampleDrawdownLevels])⟩

/-- C7: a single `updateCapital` call fires exactly the previously
untriggered levels whose threshold the resulting drawdown satisfies, in
ascending index order with each level's configured action, and in the spec
example (levels -5 percent pause, -10 percent pause-and-reset, -15 percent
stop; peak 100, drop to 84, drawdown -16 percent) levels 1, 2 and 3 all
fire in that one call, in that order, ending in the stop action, with the
pause actions executed along the way. -/
theorem drawdown_levels_fire_in_one_call (m : DrawdownManager) (now x : ℚ) :
    (m.updateCapital now x).2 =
      firedLevels ((m.updateCapital now x).1.currentDrawdown) m.triggeredLevels 0 m.levels
    ∧ List.Pairwise (fun p q : ℕ × DrawdownAction => p.1 < q.1) (m.updateCapital now x).2
    ∧ ((DrawdownManager.mkInit 100 exampleDrawdownLevels).updateCapital 0 84).2 =
        [(0, DrawdownAction.pause), (1, DrawdownAction.pause_and_reset),
         (2, DrawdownAction.stop)]
    ∧ (((DrawdownManager.mkInit 100 exampleDrawdownLevels).updateCapital 0 84).1).isPaused = true
    ∧ (((DrawdownManager.mkInit 100 exampleDrawdownLevels).updateCapital 0 84).1).currentLevel = some 3 := by
  refine ⟨updateCapital_trace m now x, ?_, ?_, ?_, ?_⟩
  · rw [updateCapital_trace m now x]
    exact firedLevels_pairwise _ _ _ 0
  all_goals
    norm_num [DrawdownManager.mkInit, DrawdownManager.updateCapital,
      DrawdownManager.applyCapital, DrawdownManager.checkDrawdownLevels, checkLevelsAux,
      DrawdownManager.triggerLevel, DrawdownManager.executeAction,
      DrawdownManager.pauseTrading, exampleDrawdownLevels]

/-! ## Lemmas about the position manager -/

theorem sum_invested_eraseP (pair : String) :
    ∀ (ps : List Position) (pos : Position),
      ps.find? (fun p => p.pair = pair) = some pos →
      ((ps.eraseP fun p => p.pair = pair).map Position.investedAmount).sum =
        (ps.map Position.investedAmount).sum - pos.investedAmount := by
  intro ps
  induction ps with
  | nil => intro pos h; simp at h
  | cons p ps ih =>
    intro pos h
    by_cases hp : p.pair = pair
    · have hfind : (p :: ps).find? (fun q => q.pair = pair) = some p :=
        List.find?_cons_of_pos _ (decide_eq_true hp)
      have hpos : pos = p := by
        rw [hfind] at h
        exact (Option.some.inj h).symm
      have herase : List.eraseP (fun q : Position => decide (q.pair = pair)) (p :: ps)
          = ps := List.eraseP_cons_of_pos (decide_eq_true hp)
      rw [herase, hpos]
      simp only [List.map_cons, List.sum_cons]
      ring
    · have hne : ¬ ((fun q : Position => decide (q.pair = pair)) p = true) := by
        simpa using hp
      have hfindneg : List.find? (fun q : Position => decide (q.pair = pair)) (p :: ps)
          = List.find? (fun q : Position => decide (q.pair = pair)) ps :=
        List.find?_cons_of_neg _ hne
      rw [hfindneg] at h
      have herase : List.eraseP (fun q : Position => decide (q.pair = pair)) (p :: ps)
          = p :: List.eraseP (fun q : Position => decide (q.pair = pair)) ps :=
        List.eraseP_cons_of_neg hne
      rw [herase]
      simp only [List.map_cons, List.sum_cons, ih pos h]
      ring

theorem canOpenPosition_le (m : PositionManager) (h : m.canOpenPosition = true) :
    (10 : ℚ) ≤ m.getAvailableCapital := by
  unfold PositionManager.canOpenPosition at h
  split_ifs at h with hlt
  exact not_lt.mp hlt

theorem calculatePositionSize_bounds (m : PositionManager) (price : ℚ)
    (vol : Option ℚ) (havail0 : 0 ≤ m.getAvailableCapital)
    (h0 : 0 ≤ m.maxPositionPercent) (h1 : m.maxPositionPercent ≤ 1)
    (hv : ∀ v, vol = some v → 0 ≤ v) :
    0 ≤ (m.calculatePositionSize price vol).amountUSD
    ∧ (m.calculatePositionSize price vol).amountUSD ≤ m.getAvailableCapital := by
  cases vol with
  | none =>
    simp only [PositionManager.calculatePositionSize]
    exact ⟨mul_nonneg havail0 h0,
      le_trans (mul_le_of_le_one_right havail0 h1) (le_refl _)⟩
  | some v =>
    have hv0 : 0 ≤ v := hv v rfl
    have hadj1 : max (1/2 : ℚ) (1 - v / (1/2)) ≤ 1 := by
      apply max_le (by norm_num)
      have hd : (0:ℚ) ≤ v / (1/2) := div_nonneg hv0 (by norm_num)
      linarith
    have hadj0 : (0:ℚ) ≤ max (1/2 : ℚ) (1 - v / (1/2)) :=
      le_trans (by norm_num) (le_max_left _ _)
    simp only [PositionManager.calculatePositionSize]
    refine ⟨mul_nonneg (mul_nonneg havail0 h0) hadj0, ?_⟩
    calc m.getAvailableCapital * m.maxPositionPercent * max (1/2 : ℚ) (1 - v / (1/2))
        ≤ m.getAvailableCapital * m.maxPositionPercent :=
          mul_le_of_le_one_right (mul_nonneg havail0 h0) hadj1
      _ ≤ m.getAvailableCapital := mul_le_of_le_one_right havail0 h1

theorem openPosition_available (m : PositionManager) (now : ℚ) (pair : String)
    (entryPrice amountUSD amountToken : ℚ) (h : m.hasOpenPosition pair = false) :
    ((m.openPosition now pair entryPrice amountUSD amountToken).1).getAvailableCapital
      = m.getAvailableCapital - amountUSD := by
  unfold PositionManager.openPosition
  rw [if_neg (by simp [h])]
  simp [PositionManager.getAvailableCapital, PositionManager.capitalInPositions]
  ring

theorem reachable_invariant (m : PositionManager) (h : ReachablePM m) :
    0 ≤ m.getAvailableCapital
    ∧ (∀ p ∈ m.openPositions, 0 ≤ p.tokenAmount)
    ∧ 0 ≤ m.maxPositionPercent
    ∧ m.maxPositionPercent ≤ 1 := by
  induction h with
  | init mpp cap hcap h0 h1 =>
    refine ⟨?_, by simp [PositionManager.mkInit], h0, h1⟩
    simpa [PositionManager.mkInit, PositionManager.getAvailableCapital,
      PositionManager.capitalInPositions] using hcap
  | openSized m now pair price vol hm hp hv hgate ih =>
    obtain ⟨ih1, ih2, ih3, ih4⟩ := ih
    by_cases hhas : m.hasOpenPosition pair = true
    · have : (m.openPosition now pair price
          (m.calculatePositionSize price vol).amountUSD
          (m.calculatePositionSize price vol).amountToken).1 = m := by
        unfold PositionManager.openPosition
        rw [if_pos hhas]
      rw [this]
      exact ⟨ih1, ih2, ih3, ih4⟩
    · have hnot : m.hasOpenPosition pair = false := by
        cases hb : m.hasOpenPosition pair
        · rfl
        · exact absurd hb hhas
      have havail : (10 : ℚ) ≤ m.getAvailableCapital := canOpenPosition_le m hgate
      have havail0 : (0 : ℚ) ≤ m.getAvailableCapital := le_trans (by norm_num) havail
      obtain ⟨ha0, ha1⟩ := calculatePositionSize_bounds m price vol havail0 ih3 ih4 hv
      refine ⟨?_, ?_, ?_, ?_⟩
      · rw [openPosition_available m now pair price _ _ hnot]
        linarith
      · intro p hpmem
        unfold PositionManager.openPosition at hpmem
        rw [if_neg (by simp [hnot])] at hpmem
        simp only [List.mem_append, List.mem_singleton] at hpmem
        rcases hpmem with hpm | hpm
        · exact ih2 p hpm
        · subst hpm
          show (0:ℚ) ≤ (m.calculatePositionSize price vol).amountToken
          have : (m.calculatePositionSize price vol).amountToken =
              (m.calculatePositionSize price vol).amountUSD / price := by
            cases vol <;> rfl
          rw [this]
          exact div_nonneg ha0 (le_of_lt hp)
      · unfold PositionManager.openPosition
        rw [if_neg (by simp [hnot])]
        exact ih3
      · unfold PositionManager.openPosition
        rw [if_neg (by simp [hnot])]
        exact ih4
  | updatePos m pair price hm ih =>
    obtain ⟨ih1, ih2, ih3, ih4⟩ := ih
    unfold PositionManager.updatePosition
    cases hfind : m.openPositions.find? (fun p => p.pair = pair) with
    | none => exact ⟨ih1, ih2, ih3, ih4⟩
    | some position =>
      dsimp only
      have hsum : (((m.openPositions.map fun p =>
            if p.pair = pair then mutatePosition price p else p)).map
              Position.investedAmount).sum =
          (m.openPositions.map Position.investedAmount).sum := by
        rw [List.map_map]
        congr 1
        apply List.map_congr_left
        intro p _
        by_cases hpp : p.pair = pair <;> simp [Function.comp, hpp, mutatePosition]
      refine ⟨?_, ?_, ih3, ih4⟩
      · show (0:ℚ) ≤ m.currentCapital -
          ((m.openPositions.map fun p =>
            if p.pair = pair then mutatePosition price p else p).map
              Position.investedAmount).sum
        rw [hsum]
        exact ih1
      · intro p hpmem
        simp only [List.mem_map] at hpmem
        obtain ⟨q, hq, hqe⟩ := hpmem
        subst hqe
        by_cases hqq : q.pair = pair <;> simp [hqq, mutatePosition] <;> exact ih2 q hq
  | closePos m now pair price hm hp ih =>
    obtain ⟨ih1, ih2, ih3, ih4⟩ := ih
    unfold PositionManager.closePosition
    cases hfind : m.openPositions.find? (fun p => p.pair = pair) with
    | none => exact ⟨ih1, ih2, ih3, ih4⟩
    | some position =>
      dsimp only
      have hmem : position ∈ m.openPositions := List.mem_of_find?_eq_some hfind
      have htok : (0:ℚ) ≤ position.tokenAmount := ih2 position hmem
      have hsum := sum_invested_eraseP pair m.openPositions position hfind
      refine ⟨?_, ?_, ih3, ih4⟩
      · show (0:ℚ) ≤ m.currentCapital + (position.tokenAmount * price -
            position.investedAmount) -
          ((m.openPositions.eraseP fun p => p.pair = pair).map
            Position.investedAmount).sum
        rw [hsum]
        have hne : (0:ℚ) ≤ position.tokenAmount * price := mul_nonneg htok hp
        have : (0:ℚ) ≤ m.currentCapital -
            (m.openPositions.map Position.investedAmount).sum := ih1
        linarith
      · intro p hpmem
        exact ih2 p (List.eraseP_subset m.openPositions hpmem)

/-- C4: in every `PositionManager` state reachable through the documented
protocol (gated, sized position opening; position updates; closes at
nonnegative exit prices), the available capital equals the current capital
minus the sum of the invested amounts of the open positions and is never
negative; and with capital 50 and one opened position investing 25, the
available capital reads 25. -/
theorem available_capital_invariant (m : PositionManager) (h : ReachablePM m) :
    m.getAvailableCapital =
      m.currentCapital - (m.openPositions.map Position.investedAmount).sum
    ∧ 0 ≤ m.getAvailableCapital
    ∧ (((PositionManager.mkInit (1/2) 50).openPosition 0 "PAIR" 100 25 (1/4)).1).getAvailableCapital
        = 25 := by
  refine ⟨rfl, (reachable_invariant m h).1, ?_⟩
  norm_num [PositionManager.mkInit, PositionManager.openPosition,
    PositionManager.hasOpenPosition, PositionManager.getAvailableCapital,
    PositionManager.capitalInPositions]

/-- Witness for C4: starting from capital 50 with maximum position percent
0.5, the gate passes and `calculatePositionSize` at price 100 invests 25,
reaching a state whose available capital is 25 and nonnegative. -/
theorem available_capital_invariant_witness :
    (((PositionManager.mkInit (1/2) 50).openPosition 0 "PAIR" 100
        ((PositionManager.mkInit (1/2) 50).calculatePositionSize 100 none).amountUSD
        ((PositionManager.mkInit (1/2) 50).calculatePositionSize 100 none).amountToken).1).getAvailableCapital
      = (((PositionManager.mkInit (1/2) 50).openPosition 0 "PAIR" 100
          ((PositionManager.mkInit (1/2) 50).calculatePositionSize 100 none).amountUSD
          ((PositionManager.mkInit (1/2) 50).calculatePositionSize 100 none).amountToken).1).currentCapital
        - ((((PositionManager.mkInit (1/2) 50).openPosition 0 "PAIR" 100
            ((PositionManager.mkInit (1/2) 50).calculatePositionSize 100 none).amountUSD
            ((PositionManager.mkInit (1/2) 50).calculatePositionSize 100 none).amountToken).1).openPositions.map
              Position.investedAmount).sum
    ∧ 0 ≤ (((PositionManager.mkInit (1/2) 50).openPosition 0 "PAIR" 100
        ((PositionManager.mkInit (1/2) 50).calculatePositionSize 100 none).amountUSD
        ((PositionManager.mkInit (1/2) 50).calculatePositionSize 100 none).amountToken).1).getAvailableCapital
    ∧ (((PositionManager.mkInit (1/2) 50).openPosition 0 "PAIR" 100 25 (1/4)).1).getAvailableCapital
        = 25 :=
  available_capital_invariant _
    (ReachablePM.openSized (PositionManager.mkInit (1/2) 50) 0 "PAIR" 100 none
      (ReachablePM.init (1/2) 50 (by norm_num) (by norm_num) (by norm_num))
      (by norm_num) (fun v hv => nomatch hv)
      (by norm_num [PositionManager.mkInit, PositionManager.canOpenPosition,
        PositionManager.getAvailableCapital, PositionManager.capitalInPositions]))

/-- C8: opening a position for a pair that already has an open position
returns false and mutates nothing: the manager state (capital, open
positions, and in particular the existing position of that pair) is
returned unchanged. -/
theorem open_position_existing_pair_noop (m : PositionManager) (now : ℚ)
    (pair : String) (entryPrice amountUSD amountToken : ℚ)
    (h : m.hasOpenPosition pair = true) :
    m.openPosition now pair entryPrice amountUSD amountToken = (m, false)
    ∧ (m.openPosition now pair entryPrice amountUSD amountToken).1.currentCapital
        = m.currentCapital
    ∧ (m.openPosition now pair entryPrice amountUSD amountToken).1.openPositions
        = m.openPositions := by
  have he : m.openPosition now pair entryPrice amountUSD amountToken = (m, false) := by
    unfold PositionManager.openPosition
    rw [if_pos h]
  exact ⟨he, by rw [he], by rw [he]⟩

/-- Witness for C8: a manager holding an "ETH" position rejects a second
"ETH" open without changing state. -/
theorem open_position_existing_pair_noop_witness :
    (((PositionManager.mkInit (1/5) 50).openPosition 0 "ETH" 100 25 (1/4)).1).hasOpenPosition "ETH" = true
    ∧ ((((PositionManager.mkInit (1/5) 50).openPosition 0 "ETH" 100 25 (1/4)).1).openPosition 1 "ETH" 120 10 (1/12)
        = ((((PositionManager.mkInit (1/5) 50).openPosition 0 "ETH" 100 25 (1/4)).1), false)
      ∧ ((((PositionManager.mkInit (1/5) 50).openPosition 0 "ETH" 100 25 (1/4)).1).openPosition 1 "ETH" 120 10 (1/12)).1.currentCapital
          = (((PositionManager.mkInit (1/5) 50).openPosition 0 "ETH" 100 25 (1/4)).1).currentCapital
      ∧ ((((PositionManager.mkInit (1/5) 50).openPosition 0 "ETH" 100 25 (1/4)).1).openPosition 1 "ETH" 120 10 (1/12)).1.openPositions
          = (((PositionManager.mkInit (1/5) 50).openPosition 0 "ETH" 100 25 (1/4)).1).openPositions) :=
  ⟨by norm_num [PositionManager.mkInit, PositionManager.openPosition,
      PositionManager.hasOpenPosition],
   open_position_existing_pair_noop _ 1 "ETH" 120 10 (1/12)
     (by norm_num [PositionManager.mkInit, PositionManager.openPosition,
        PositionManager.hasOpenPosition])⟩

/-! ## Lemmas about the strategy manager and market-data validation -/

/-- C9: a `selectStrategy` request while the last successful switch (at
wall-clock time `t`, a truthy timestamp) is within the cooldown window is
rejected without any state change; `forceSwitch` to an unknown strategy
restores the previous `lastSwitch` and fails; and `forceSwitch` to a known
strategy succeeds despite the cooldown, recording the new switch time. -/
theorem strategy_switch_cooldown_and_force (sm : StrategyManager) (t now now2 : ℚ)
    (name nm bad : String)
    (hls : sm.lastSwitch = some t) (ht : t ≠ 0)
    (hcd : now - t < sm.switchCooldown)
    (hnm : nm = "grid" ∨ nm = "momentum")
    (hbad1 : bad ≠ "grid") (hbad2 : bad ≠ "momentum") :
    sm.selectStrategy now name = (sm, false)
    ∧ (sm.forceSwitch now2 bad).1.lastSwitch = sm.lastSwitch
    ∧ (sm.forceSwitch now2 bad).2 = false
    ∧ (sm.forceSwitch now nm).2 = true
    ∧ (sm.forceSwitch now nm).1.lastSwitch = some now := by
  have hcond : truthyQ sm.lastSwitch = true
      ∧ now - sm.lastSwitch.getD 0 < sm.switchCooldown := by
    rw [hls]
    exact ⟨by simp [truthyQ, ht], by simpa using hcd⟩
  refine ⟨?_, ?_, ?_, ?_, ?_⟩
  · unfold StrategyManager.selectStrategy
    rw [if_pos hcond]
  · unfold StrategyManager.forceSwitch StrategyManager.selectStrategy
    simp [truthyQ, hbad1, hbad2]
  · unfold StrategyManager.forceSwitch StrategyManager.selectStrategy
    simp [truthyQ, hbad1, hbad2]
  · unfold StrategyManager.forceSwitch StrategyManager.selectStrategy
    rcases hnm with h | h <;> subst h <;> simp [truthyQ]
  · unfold StrategyManager.forceSwitch StrategyManager.selectStrategy
    rcases hnm with h | h <;> subst h <;> simp [truthyQ]

/-- Witness for C9: after a successful switch to grid at time 1000, a
request at time 2000 (within the 300000 ms cooldown) is rejected, a forced
switch to an unknown name fails restoring the timestamp, and a forced
switch to momentum succeeds. -/
theorem strategy_switch_cooldown_and_force_witness :
    ((((StrategyManager.mkInit).selectStrategy 1000 "grid").1).lastSwitch = some 1000
      ∧ (1000 : ℚ) ≠ 0
      ∧ (2000 : ℚ) - 1000 < (((StrategyManager.mkInit).selectStrategy 1000 "grid").1).switchCooldown
      ∧ ("momentum" = "grid" ∨ "momentum" = "momentum")
      ∧ "unknown" ≠ "grid" ∧ "unknown" ≠ "momentum")
    ∧ ((((StrategyManager.mkInit).selectStrategy 1000 "grid").1).selectStrategy 2000 "momentum"
        = ((((StrategyManager.mkInit).selectStrategy 1000 "grid").1), false)
      ∧ ((((StrategyManager.mkInit).selectStrategy 1000 "grid").1).forceSwitch 2000 "unknown").1.lastSwitch
          = (((StrategyManager.mkInit).selectStrategy 1000 "grid").1).lastSwitch
      ∧ ((((StrategyManager.mkInit).selectStrategy 1000 "grid").1).forceSwitch 2000 "unknown").2 = false
      ∧ ((((StrategyManager.mkInit).selectStrategy 1000 "grid").1).forceSwitch 2000 "momentum").2 = true
      ∧ ((((StrategyManager.mkInit).selectStrategy 1000 "grid").1).forceSwitch 2000 "momentum").1.lastSwitch
          = some 2000) :=
  ⟨⟨by norm_num [StrategyManager.mkInit, StrategyManager.selectStrategy, truthyQ],
    by norm_num,
    by norm_num [StrategyManager.mkInit, StrategyManager.selectStrategy, truthyQ],
    Or.inr rfl, by simp, by simp⟩,
   strategy_switch_cooldown_and_force _ 1000 2000 2000 "momentum" "momentum" "unknown"
     (by norm_num [StrategyManager.mkInit, StrategyManager.selectStrategy, truthyQ])
     (by norm_num)
     (by norm_num [StrategyManager.mkInit, StrategyManager.selectStrategy, truthyQ])
     (Or.inr rfl) (by simp) (by simp)⟩

/-- C10: a market snapshot whose required fields are all present but whose
price, volume or liquidity equals 0 — valid inputs per the MarketData
interface — fails `validateMarketData`, because the required-field check
tests truthiness, and is therefore rejected by both `canTrade` gates
exactly as if the field were missing. -/
theorem validate_market_data_zero_fields (md : MarketData)
    (minLiquidity minVolume24h : ℚ) (p v l : ℚ) (ts : String)
    (hp : md.price = some p) (hv : md.volume = some v) (hl : md.liquidity = some l)
    (hts : md.timestamp = some ts)
    (hz : p = 0 ∨ v = 0 ∨ l = 0) :
    validateMarketData md = false
    ∧ GridTradingStrategy.canTrade minLiquidity md = false
    ∧ MomentumStrategy.canTrade minVolume24h md = false := by
  have hval : validateMarketData md = false := by
    unfold validateMarketData
    rw [hp, hv, hl]
    rcases hz with h | h | h <;> subst h <;> simp [truthyQ]
  refine ⟨hval, ?_, ?_⟩
  · unfold GridTradingStrategy.canTrade
    rw [if_pos hval]
  · unfold MomentumStrategy.canTrade
    rw [if_pos hval]

/-- Witness for C10: all required fields present, volume 0, minimum
liquidity 1000 and minimum 24h volume 1000. -/
theorem validate_market_data_zero_fields_witness :
    (sampleZeroVolumeMarketData.price = some 100
      ∧ sampleZeroVolumeMarketData.volume = some 0
      ∧ sampleZeroVolumeMarketData.liquidity = some 5000
      ∧ sampleZeroVolumeMarketData.timestamp = some "2024-01-01T00:00:00Z"
      ∧ ((100 : ℚ) = 0 ∨ (0 : ℚ) = 0 ∨ (5000 : ℚ) = 0))
    ∧ (validateMarketData sampleZeroVolumeMarketData = false
      ∧ GridTradingStrategy.canTrade 1000 sampleZeroVolumeMarketData = false
      ∧ MomentumStrategy.canTrade 1000 sampleZeroVolumeMarketData = false) :=
  ⟨⟨rfl, rfl, rfl, rfl, Or.inr (Or.inl rfl)⟩,
   validate_market_data_zero_fields sampleZeroVolumeMarketData 1000 1000 100 0 5000
     "2024-01-01T00:00:00Z" rfl rfl rfl rfl (Or.inr (Or.inl rfl))⟩

end JBT
